import Mathlib

/-!
Shallow embedding of the space-sdk-ts routing core, covering the helper
functions in src/packages/worker/src/helpers.ts, the Route class of
src/unnamed/part_001 and the Router class of src/unnamed/part_003.
JavaScript runtime values are modelled by the inductive JsVal below;
numeric strings are modelled as integer parses (the claims under
verification only depend on the fact that number and integer typed
parameters are parsed numerically, never on float precision).
-/

namespace SpaceSDK

/-- Model of a JavaScript runtime value.  Numbers are carried as integers
with an explicit NaN constructor for failed numeric conversions. -/
inductive JsVal where
  | null
  | undefined
  | str (s : String)
  | num (n : Int)
  | nan
  | bool (b : Bool)
  | arr (elems : List JsVal)
  | obj (fields : List (String × JsVal))

/-- Model of a JavaScript exception kind as far as the dispatcher code can
raise one: a TypeError from a property access on null or undefined, or a
SyntaxError from JSON.parse. -/
inductive JsError where
  | typeError
  | syntaxError
deriving DecidableEq, Repr

/-- Lookup in an association list, returning the first binding, matching
JavaScript object property lookup for objects with distinct keys. -/
def afind {β : Type} (k : String) : List (String × β) → Option β
  | [] => none
  | kv :: t => if kv.1 = k then some kv.2 else afind k t

/-- JavaScript truthiness of a value. -/
def truthy : JsVal → Bool
  | .null => false
  | .undefined => false
  | .str s => !(s == "")
  | .num n => !(n == 0)
  | .nan => false
  | .bool b => b
  | .arr _ => true
  | .obj _ => true

/-- Whether a value is the undefined value. -/
def jsUndef : JsVal → Bool
  | .undefined => true
  | _ => false

/-- JavaScript property access e[k].  Reading a property of null or
undefined raises a TypeError; reading a missing property of an object or
a property of any other primitive yields undefined. -/
def getProp (e : JsVal) (k : String) : Except JsError JsVal :=
  match e with
  | .null => .error .typeError
  | .undefined => .error .typeError
  | .obj fields => .ok ((afind k fields).getD .undefined)
  | _ => .ok .undefined

/-- Decimal digit value of a character. -/
def digitVal (c : Char) : Option Nat :=
  if c = '0' then some 0 else if c = '1' then some 1 else if c = '2' then some 2
  else if c = '3' then some 3 else if c = '4' then some 4 else if c = '5' then some 5
  else if c = '6' then some 6 else if c = '7' then some 7 else if c = '8' then some 8
  else if c = '9' then some 9 else none

/-- Accumulating decimal parse of a character list. -/
def strToNatAux (acc : Nat) : List Char → Option Nat
  | [] => some acc
  | c :: rest =>
    match digitVal c with
    | some d => strToNatAux (acc * 10 + d) rest
    | none => none

/-- Decimal parse of a nonempty all digit character list. -/
def strToNat : List Char → Option Nat
  | [] => none
  | cs => strToNatAux 0 cs

/-- Integer parse of a string, with an optional leading minus sign. -/
def strToInt (s : String) : Option Int :=
  match s.data with
  | '-' :: rest => (strToNat rest).map (fun n => -(n : Int))
  | cs => (strToNat cs).map (fun n => (n : Int))

/-- Model of the JavaScript Number(s) conversion on the strings the query
coercion feeds it: the empty string converts to 0, an integer literal to
its value, anything else to NaN. -/
def jsNumber (s : String) : JsVal :=
  if s = "" then .num 0
  else match strToInt s with
    | some n => .num n
    | none => .nan

/-- Model of JSON.parse on flat literals: null, booleans, integer
literals and double quoted strings without escapes; any other text raises
a SyntaxError.  The routes under verification never feed composite JSON
literals to this call. -/
def jsonParse (s : String) : Except JsError JsVal :=
  if s = "null" then .ok .null
  else if s = "true" then .ok (.bool true)
  else if s = "false" then .ok (.bool false)
  else match strToInt s with
    | some n => .ok (.num n)
    | none =>
      match s.data with
      | '\"' :: rest =>
        if rest.getLast? = some '\"' then .ok (.str (String.mk rest.dropLast))
        else .error .syntaxError
      | _ => .error .syntaxError

/-- One switch arm of getPayloadFromParams in helpers.ts: coerce a raw
query parameter string by the declared JSON schema type of its property. -/
def coerceByType (pty : JsVal) (param : String) : Except JsError JsVal :=
  match pty with
  | .str "string" => .ok (.str param)
  | .str "boolean" => .ok (.bool (param == "true"))
  | .str "number" => .ok (jsNumber param)
  | .str "integer" => .ok (jsNumber param)
  | _ => jsonParse param

/-- The loop body of getPayloadFromParams: walk the query keys in order,
skip keys whose property schema is missing (falsy), and coerce the rest
by declared type.  Reading a key of an undefined properties object raises
a TypeError exactly as in JavaScript. -/
def buildPayload (props : JsVal) : List (String × String) → Except JsError (List (String × JsVal))
  | [] => .ok []
  | (k, param) :: rest =>
    match getProp props k with
    | .error e => .error e
    | .ok pv =>
      if truthy pv = false then buildPayload props rest
      else
        match getProp pv "type" with
        | .error e => .error e
        | .ok pty =>
          match coerceByType pty param with
          | .error e => .error e
          | .ok jv =>
            match buildPayload props rest with
            | .error e => .error e
            | .ok tail => .ok ((k, jv) :: tail)

/-- The raw query object: every parameter value is a string. -/
def rawQueryObject (query : List (String × String)) : List (String × JsVal) :=
  query.map (fun kv => (kv.1, JsVal.str kv.2))

/-- Embedding of getPayloadFromParams from helpers.ts.  When the schema
has no type or a truthy additionalProperties field the raw query object
is returned as is; otherwise the declared properties drive a per key
coercion and undeclared keys are dropped. -/
def getPayloadFromParams (query : List (String × String)) (inputSchema : JsVal) :
    Except JsError JsVal :=
  match getProp inputSchema "type" with
  | .error e => .error e
  | .ok ty =>
    if jsUndef ty then .ok (.obj (rawQueryObject query))
    else
      match getProp inputSchema "additionalProperties" with
      | .error e => .error e
      | .ok ap =>
        if truthy ap then .ok (.obj (rawQueryObject query))
        else
          match getProp inputSchema "properties" with
          | .error e => .error e
          | .ok props =>
            match buildPayload props query with
            | .error e => .error e
            | .ok fields => .ok (.obj fields)

/-- Embedding of processException from helpers.ts.  A string failure
value is returned as is; otherwise the guard combines JavaScript
truthiness of e.message with a typeof string test, and the property
access itself raises a TypeError when e is null or undefined. -/
def processException (e : JsVal) : Except JsError String :=
  match e with
  | .str s => .ok s
  | _ =>
    match getProp e "message" with
    | .error err => .error err
    | .ok m =>
      match m with
      | .str s => if truthy (.str s) then .ok s else .ok "Internal server error occured"
      | _ => .ok "Internal server error occured"

/-- Model of the zod schema values the repository constructs: z.null(),
z.any(), z.string(), z.number(), z.boolean() and z.object({...}). -/
inductive ZodType where
  | znull
  | zany
  | zstring
  | znumber
  | zboolean
  | zobject (fields : List (String × ZodType))

/-- The internal typeName tag zod stores in the def field of a schema. -/
def zodTypeName : ZodType → String
  | .znull => "ZodNull"
  | .zany => "ZodAny"
  | .zstring => "ZodString"
  | .znumber => "ZodNumber"
  | .zboolean => "ZodBoolean"
  | .zobject _ => "ZodObject"

/-- Embedding of isZodTypeNull from helpers.ts: the stored typeName tag is
compared against the literal ZodNull. -/
def isZodTypeNull (t : ZodType) : Bool := zodTypeName t == "ZodNull"

/-- One field level validation issue as reported by zod safeParse. -/
structure ParseIssue where
  path : List String
  message : String

/-- Result of zod safeParse: the parsed value on success, a list of
issues on failure. -/
inductive ParseResult where
  | success (value : JsVal)
  | failure (issues : List ParseIssue)

mutual

/-- Model of zod safeParse for the schema constructors above.  The
dispatcher only inspects the success flag and the issues, never the
parsed data, so object parsing returns the candidate fields as parsed. -/
def safeParse (t : ZodType) (v : JsVal) : ParseResult :=
  match t with
  | .zany => .success v
  | .znull =>
    match v with
    | .null => .success .null
    | _ => .failure [⟨[], "Expected null"⟩]
  | .zstring =>
    match v with
    | .str s => .success (.str s)
    | _ => .failure [⟨[], "Expected string"⟩]
  | .znumber =>
    match v with
    | .num n => .success (.num n)
    | _ => .failure [⟨[], "Expected number"⟩]
  | .zboolean =>
    match v with
    | .bool b => .success (.bool b)
    | _ => .failure [⟨[], "Expected boolean"⟩]
  | .zobject fields =>
    match v with
    | .obj ofields =>
      let issues := parseFields fields ofields
      if issues.isEmpty then .success (.obj ofields) else .failure issues
    | _ => .failure [⟨[], "Expected object"⟩]

/-- Issues collected over the declared object fields: a missing field
reports Required, a present field reports its nested issues with the
field name prepended to each issue path. -/
def parseFields : List (String × ZodType) → List (String × JsVal) → List ParseIssue
  | [], _ => []
  | (k, t) :: rest, ofields =>
    (match afind k ofields with
     | none => [⟨[k], "Required"⟩]
     | some v =>
       match safeParse t v with
       | .success _ => []
       | .failure issues => issues.map (fun i => ⟨k :: i.path, i.message⟩)) ++
    parseFields rest ofields

end

/-- A zod schema pair of a route.  The source interface marks both fields
optional, but every construction site in the repository (the query and
mutation factories and the input and output builder calls) assigns both,
so the embedding carries them as present. -/
structure ZodSchemaPair where
  input : ZodType
  output : ZodType

/-- The JSON schema documents derived from the zod pair; plain JavaScript
objects in the source. -/
structure JsonSchemaPair where
  input : JsVal
  output : JsVal

/-- Embedding of the RouteConfig interface of src/unnamed/part_001. -/
structure RouteConfig where
  opId : String
  opType : String
  method : String
  url : String
  jsonSchema : JsonSchemaPair
  zodSchemas : ZodSchemaPair

/-- Outcome of a user handler invocation: the promise resolves with a
value or rejects with a failure value. -/
inductive HandlerResult where
  | resolve (value : JsVal)
  | reject (err : JsVal)

/-- A user handler.  The context argument built by the dispatcher carries
request metadata only; none of the claims under verification observe it,
so the embedding passes the payload alone. -/
abbrev Handler := JsVal → HandlerResult

/-- A route as installed: its configuration plus the optionally attached
handler. -/
structure Route where
  config : RouteConfig
  handler : Option Handler

/-- An inbound HTTP request as the dispatcher sees it: the parsed JSON
body and the raw query parameter map. -/
structure Request where
  body : JsVal
  query : List (String × String)

/-- JSON rendering of one validation issue, as res.json serialises it. -/
def issueToJs (i : ParseIssue) : JsVal :=
  .obj [("path", .arr (i.path.map JsVal.str)), ("message", .str i.message)]

/-- JSON rendering of the issues list. -/
def issuesToJs (issues : List ParseIssue) : JsVal := .arr (issues.map issueToJs)

/-- Name of a JavaScript exception kind, used when the dispatcher itself
throws instead of responding. -/
def errName : JsError → String
  | .typeError => "TypeError"
  | .syntaxError => "SyntaxError"

/-- Observable outcome of one dispatch: either an exception escaped the
request handler without a response being written, or a response with a
status, a JSON body, and a flag recording whether the user handler was
invoked while producing it. -/
inductive Outcome where
  | threw (msg : String)
  | responded (status : Nat) (body : JsVal) (handlerInvoked : Bool)

/-- The payload extraction step of the dispatcher in Route.addRoute: null
when the input schema is the null sentinel, the parsed body for post and
put, and the coerced query parameters otherwise. -/
def extractPayload (cfg : RouteConfig) (req : Request) : Except JsError JsVal :=
  let isBodyPresent := cfg.method == "post" || cfg.method == "put"
  if isZodTypeNull cfg.zodSchemas.input then .ok .null
  else if isBodyPresent then .ok req.body
  else getPayloadFromParams req.query cfg.jsonSchema.input

/-- Embedding of the request handler closure created by Route.addRoute in
src/unnamed/part_001: missing handler check, payload extraction, zod
validation with a 400 on failure, handler invocation, 200 on success and
500 with the processed exception message on rejection.  An exception in
payload extraction or in processException escapes the closure without a
response being written. -/
def dispatch (r : Route) (req : Request) : Outcome :=
  match r.handler with
  | none => .threw "Validator and query are not defined"
  | some h =>
    match extractPayload r.config req with
    | .error e => .threw (errName e)
    | .ok payload =>
      match safeParse r.config.zodSchemas.input payload with
      | .failure issues =>
        .responded 400
          (.obj [("message", .str "Invalid request payload sent"), ("errors", issuesToJs issues)])
          false
      | .success _ =>
        match h payload with
        | .resolve out => .responded 200 out true
        | .reject e =>
          match processException e with
          | .ok m => .responded 500 (.obj [("message", .str m)]) true
          | .error err => .threw (errName err)

mutual

/-- Model of zodToJsonSchema on the schema constructors above, composed
with the deletion of the meta schema marker performed right after each
call site (the embedding simply never carries that marker field). -/
def zodToJsonSchema (t : ZodType) : JsVal :=
  match t with
  | .znull => .obj [("type", .str "null")]
  | .zany => .obj []
  | .zstring => .obj [("type", .str "string")]
  | .znumber => .obj [("type", .str "number")]
  | .zboolean => .obj [("type", .str "boolean")]
  | .zobject fields =>
    .obj [("type", .str "object"),
          ("properties", .obj (zodFieldsToJson fields)),
          ("required", .arr (fields.map (fun kv => JsVal.str kv.1))),
          ("additionalProperties", .bool false)]

/-- Derived JSON schemas of the declared object fields. -/
def zodFieldsToJson : List (String × ZodType) → List (String × JsVal)
  | [] => []
  | (k, t) :: rest => (k, zodToJsonSchema t) :: zodFieldsToJson rest

end

/-- Embedding of the RouterConfig interface of src/unnamed/part_003. -/
structure RouterConfig where
  name : String
  baseUrl : String

/-- The route configuration built by Router.query: GET method, templated
URL, null sentinel input and open any output. -/
def queryRouteConfig (rc : RouterConfig) (opId : String) : RouteConfig :=
  { opId := opId
    opType := "query"
    method := "get"
    url := rc.baseUrl ++ "/" ++ opId
    jsonSchema := { input := .obj [("type", .str "null")], output := .obj [] }
    zodSchemas := { input := .znull, output := .zany } }

/-- The route configuration built by Router.mutation: POST method,
templated URL, open any input and null sentinel output. -/
def mutationRouteConfig (rc : RouterConfig) (opId : String) : RouteConfig :=
  { opId := opId
    opType := "mutation"
    method := "post"
    url := rc.baseUrl ++ "/" ++ opId
    jsonSchema := { input := .obj [], output := .obj [("type", .str "null")] }
    zodSchemas := { input := .zany, output := .znull } }

/-- The Router state: its configuration and the ordered route registry. -/
structure RouterState where
  config : RouterConfig
  routes : List Route

/-- One call on a route handle in a builder chain: an input or output
schema refinement or a handler attachment. -/
inductive ChainOp where
  | inputOp (schema : ZodType)
  | outputOp (schema : ZodType)
  | fnOp (h : Handler)

/-- Whether a chain call is one of the two schema refinements. -/
def isSchemaOp : ChainOp → Bool
  | .inputOp _ => true
  | .outputOp _ => true
  | .fnOp _ => false

/-- Whether a chain call is a handler attachment. -/
def isFnOp : ChainOp → Bool
  | .fnOp _ => true
  | _ => false

/-- Effect of one chain call on the current route value, following
Route.input, Route.output and Route.fn of src/unnamed/part_001: a schema
refinement stores the zod schema and its derived JSON schema in the
configuration and constructs a new Route object, which starts with no
handler; fn records the handler on the current object. -/
def applyChainOp (r : Route) : ChainOp → Route
  | .inputOp s =>
    { config := { r.config with
        zodSchemas := { r.config.zodSchemas with input := s }
        jsonSchema := { r.config.jsonSchema with input := zodToJsonSchema s } }
      handler := none }
  | .outputOp s =>
    { config := { r.config with
        zodSchemas := { r.config.zodSchemas with output := s }
        jsonSchema := { r.config.jsonSchema with output := zodToJsonSchema s } }
      handler := none }
  | .fnOp h => { r with handler := some h }

/-- The route value produced by a whole chain of calls. -/
def applyChain (r : Route) (ops : List ChainOp) : Route := ops.foldl applyChainOp r

/-- One fluent registration: the operation kind and id passed to the
query or mutation factory, followed by the chained calls on the returned
handle. -/
structure Chain where
  isQuery : Bool
  opId : String
  ops : List ChainOp

/-- The fresh route value the factory creates before any chained call. -/
def initialRoute (rc : RouterConfig) (c : Chain) : Route :=
  { config := if c.isQuery then queryRouteConfig rc c.opId else mutationRouteConfig rc c.opId
    handler := none }

/-- Stepping a chain against the registry.  Each schema refinement calls
the updater the factory captured, which assigns the new route into the
slot index recorded at creation time; fn mutates the handler field of the
object the slot already holds, so the registry observes it through the
same assignment.  In a linear fluent chain the current handle is always
the object stored in the slot. -/
def runChainSteps (st : RouterState) (idx : Nat) (r : Route) :
    List ChainOp → RouterState × Route
  | [] => (st, r)
  | op :: rest =>
    let r2 := applyChainOp r op
    runChainSteps { st with routes := st.routes.set idx r2 } idx r2 rest

/-- Embedding of one registration: Router._addRoute captures the index at
the end of the registry, appends the fresh route there, and the chained
calls then update that same slot. -/
def runChain (st : RouterState) (c : Chain) : RouterState :=
  let r0 := initialRoute st.config c
  let idx := st.routes.length
  (runChainSteps { st with routes := st.routes ++ [r0] } idx r0 c.ops).1

/-- A whole registration phase: the chains run in program order. -/
def runChains (st : RouterState) (cs : List Chain) : RouterState := cs.foldl runChain st

/-- An OpenAPI response object: its description and, when present, the
content map carried as a JSON value. -/
structure ResponseObject where
  description : String
  content : Option JsVal

/-- An OpenAPI request body object as the source builds it. -/
structure RequestBodyObject where
  description : String
  content : List (String × JsVal)
  required : Bool

/-- An OpenAPI operation object as the source builds it; the responses
field is the ordered key value layout of the object literal, and the sc
specific extension field records the operation kind. -/
structure OperationObject where
  operationId : String
  requestBody : RequestBodyObject
  responses : List (String × ResponseObject)
  xRequestOpType : String

/-- The triple Route._getOpenAPIOperation returns. -/
structure PathOperation where
  path : String
  method : String
  operation : OperationObject

/-- The fixed JSON schema of the standard error body built by
getErrorResponseSchema in helpers.ts. -/
def errorSchemaJson : JsVal :=
  .obj [("type", .str "object"),
        ("properties",
         .obj [("message", .obj [("type", .str "string")]),
               ("errors",
                .obj [("type", .str "array"),
                      ("items",
                       .obj [("type", .str "object"),
                             ("properties",
                              .obj [("message", .obj [("type", .str "string")])]),
                             ("additionalProperties", .bool true)])])])]

/-- Embedding of getErrorResponseSchema from helpers.ts. -/
def getErrorResponseSchema : ResponseObject :=
  { description := "Standard error response object"
    content := some (.obj [("application/json", .obj [("schema", errorSchemaJson)])]) }

/-- Embedding of Route._getOpenAPIOperation from src/unnamed/part_001:
the request body is required with JSON content exactly when the input
schema is not the null sentinel, the success response sits under 204 when
the output schema is the null sentinel and under 200 with JSON content
otherwise, and the standard 400 and 500 error responses follow it. -/
def getOpenAPIOperation (cfg : RouteConfig) : PathOperation :=
  let isRequestNull := isZodTypeNull cfg.zodSchemas.input
  let requestBodyObject : RequestBodyObject :=
    if isRequestNull then
      { description := "Request object for " ++ cfg.opId, content := [], required := false }
    else
      { description := "Request object for " ++ cfg.opId
        content := [("application/json", .obj [("schema", cfg.jsonSchema.input)])]
        required := true }
  let isResponseNull := isZodTypeNull cfg.zodSchemas.output
  let successResponseStatusCode := if isResponseNull then "204" else "200"
  let successResponseObject : ResponseObject :=
    { description := "Success response object for " ++ cfg.opId
      content :=
        if isResponseNull then none
        else some (.obj [("application/json", .obj [("schema", cfg.jsonSchema.output)])]) }
  { path := cfg.url
    method := cfg.method
    operation :=
      { operationId := cfg.opId
        requestBody := requestBodyObject
        responses := [(successResponseStatusCode, successResponseObject),
                      ("400", getErrorResponseSchema),
                      ("500", getErrorResponseSchema)]
        xRequestOpType := cfg.opType } }

/-- Update of one key of an ordered string keyed object, as JavaScript
property assignment behaves: an existing key keeps its position and gets
the new value computed from the old one, a new key is appended. -/
def aupdate {β : Type} (k : String) (f : Option β → β) : List (String × β) → List (String × β)
  | [] => [(k, f none)]
  | kv :: t => if kv.1 = k then (kv.1, f (some kv.2)) :: t else kv :: aupdate k f t

/-- Plain assignment of one key of an ordered object. -/
def aset {β : Type} (k : String) (v : β) (l : List (String × β)) : List (String × β) :=
  aupdate k (fun _ => v) l

/-- A path item of the OpenAPI document: the ordered map from HTTP method
to operation object. -/
abbrev PathItem := List (String × OperationObject)

/-- The state of the openapi3-ts OpenApiBuilder the Router owns: the
document title and the ordered paths object. -/
structure OpenApiDocState where
  title : String
  paths : List (String × PathItem)

/-- OpenApiBuilder.create: a default titled document with no paths. -/
def createBuilder : OpenApiDocState := { title := "app", paths := [] }

/-- OpenApiBuilder.addTitle: overwrite the document title. -/
def addTitle (b : OpenApiDocState) (t : String) : OpenApiDocState := { b with title := t }

/-- OpenApiBuilder.addPath with a single method path item: the given
method and operation are merged over whatever path item the document
already holds for that path. -/
def addPath (b : OpenApiDocState) (p : String) (m : String) (op : OperationObject) :
    OpenApiDocState :=
  { b with paths := aupdate p (fun old => aset m op (old.getD [])) b.paths }

/-- Embedding of Router._generateOpenApi from src/unnamed/part_003: set
the title to the router name, then add one path per registered route in
registration order, each carrying the operation derived from the route
configuration. -/
def generateOpenApi (b : OpenApiDocState) (st : RouterState) : OpenApiDocState :=
  st.routes.foldl
    (fun acc r =>
      let po := getOpenAPIOperation r.config
      addPath acc po.path po.method po.operation)
    (addTitle b st.config.name)

/-- A handler that resolves with a fixed value, used to instantiate
theorems on concrete routes. -/
def constHandler (v : JsVal) : Handler := fun _ => .resolve v

/-- A handler that rejects with a fixed failure value. -/
def rejectHandler (e : JsVal) : Handler := fun _ => .reject e

/-- C7: a route created by the query factory defaults to the GET method,
a route created by the mutation factory defaults to the POST method, and
both default their URL to the base URL followed by a slash and the
operation id. -/
theorem route_factory_defaults (rc : RouterConfig) (opId : String) :
    (queryRouteConfig rc opId).method = "get" ∧
    (mutationRouteConfig rc opId).method = "post" ∧
    (queryRouteConfig rc opId).url = rc.baseUrl ++ "/" ++ opId ∧
    (mutationRouteConfig rc opId).url = rc.baseUrl ++ "/" ++ opId :=
  ⟨rfl, rfl, rfl, rfl⟩

/-- C5: for every route configuration the generated operation stores its
success response under 204 exactly when the output schema is the null
sentinel and under 200 with an application json body otherwise, and the
responses map always also carries the standard 400 and 500 error
responses. -/
theorem openapi_response_codes (cfg : RouteConfig) :
    (getOpenAPIOperation cfg).operation.responses.map Prod.fst =
      [(if isZodTypeNull cfg.zodSchemas.output then "204" else "200"), "400", "500"] ∧
    afind (if isZodTypeNull cfg.zodSchemas.output then "204" else "200")
        (getOpenAPIOperation cfg).operation.responses =
      some { description := "Success response object for " ++ cfg.opId
             content :=
               if isZodTypeNull cfg.zodSchemas.output then none
               else some (.obj [("application/json", .obj [("schema", cfg.jsonSchema.output)])]) } ∧
    afind "400" (getOpenAPIOperation cfg).operation.responses = some getErrorResponseSchema ∧
    afind "500" (getOpenAPIOperation cfg).operation.responses = some getErrorResponseSchema := by
  cases h : isZodTypeNull cfg.zodSchemas.output <;>
    simp [getOpenAPIOperation, afind, h]

/-- C4 counterexample: the default query route, which has no declared
input schema, does not advertise 204 anywhere in its responses; its
success status is 200, even though its request body is indeed not
required. -/
theorem null_input_query_openapi_cex :
    ("204" ∈ (getOpenAPIOperation (queryRouteConfig ⟨"srv", "/v1"⟩ "op")).operation.responses.map
        Prod.fst → False) ∧
    (getOpenAPIOperation (queryRouteConfig ⟨"srv", "/v1"⟩ "op")).operation.responses.map Prod.fst =
      ["200", "400", "500"] ∧
    (getOpenAPIOperation (queryRouteConfig ⟨"srv", "/v1"⟩ "op")).operation.requestBody.required =
      false :=
  ⟨by decide, rfl, rfl⟩

/-- C4 amended: a query route with no declared input schema does not
require a request body in the generated OpenAPI document, but its
advertised success status is 200, not 204, because the success code is
derived from the output schema and the default query output schema is
the open any schema rather than the null sentinel; the live dispatcher
likewise returns 200 with the handler result on a successful call. -/
theorem null_input_query_openapi (rc : RouterConfig) (opId : String) (h : Handler)
    (req : Request) (v : JsVal) (hh : h .null = .resolve v) :
    (getOpenAPIOperation (queryRouteConfig rc opId)).operation.requestBody.required = false ∧
    (getOpenAPIOperation (queryRouteConfig rc opId)).operation.responses.map Prod.fst =
      ["200", "400", "500"] ∧
    dispatch ⟨queryRouteConfig rc opId, some h⟩ req = .responded 200 v true := by
  refine ⟨rfl, by simp [getOpenAPIOperation, queryRouteConfig, isZodTypeNull, zodTypeName], ?_⟩
  simp [dispatch, extractPayload, queryRouteConfig, isZodTypeNull, zodTypeName, safeParse, hh]

/-- Instantiation of the amended C4 statement on a concrete route,
request and handler. -/
theorem null_input_query_openapi_witness :
    constHandler (.str "hi") .null = .resolve (.str "hi") ∧
    dispatch ⟨queryRouteConfig ⟨"srv", "/v1"⟩ "op", some (constHandler (.str "hi"))⟩
        ⟨.obj [], []⟩ =
      .responded 200 (.str "hi") true :=
  ⟨rfl,
   (null_input_query_openapi ⟨"srv", "/v1"⟩ "op" (constHandler (.str "hi"))
      ⟨.obj [], []⟩ (.str "hi") rfl).2.2⟩

/-- C2 counterexample: a handler rejection whose failure value carries
the empty string in its message field, which is a string, is answered
with the fixed fallback text rather than with that empty message,
because the source guards the message field with JavaScript truthiness
before the typeof test. -/
theorem handler_failure_message_cex :
    dispatch ⟨mutationRouteConfig ⟨"srv", "/v1"⟩ "op",
        some (rejectHandler (.obj [("message", .str "")]))⟩ ⟨.obj [], []⟩ =
      .responded 500 (.obj [("message", .str "Internal server error occured")]) true ∧
    dispatch ⟨mutationRouteConfig ⟨"srv", "/v1"⟩ "op",
        some (rejectHandler (.obj [("message", .str "")]))⟩ ⟨.obj [], []⟩ ≠
      .responded 500 (.obj [("message", .str "")]) true := by
  have hd : dispatch ⟨mutationRouteConfig ⟨"srv", "/v1"⟩ "op",
      some (rejectHandler (.obj [("message", .str "")]))⟩ ⟨.obj [], []⟩ =
      .responded 500 (.obj [("message", .str "Internal server error occured")]) true := rfl
  refine ⟨hd, ?_⟩
  rw [hd]
  simp

/-- Modelled from the amended claim wording: the derived failure message
is the failure value itself when it is a string, else the value of its
message field when that field is a nonempty string, else the fixed
fallback text. -/
def claimDerivedMessage : JsVal → String
  | .str s => s
  | .obj fields =>
    match afind "message" fields with
    | some (.str s) => if s = "" then "Internal server error occured" else s
    | _ => "Internal server error occured"
  | _ => "Internal server error occured"

/-- C2 amended: whenever the invoked handler rejects with a value e that
is neither null nor undefined, the dispatcher responds with status 500
and body message m, where m is e itself when e is a plain string, else
the value of the message field of e when that field is a nonempty
string, else the fixed fallback text. -/
theorem handler_failure_message (cfg : RouteConfig) (h : Handler) (req : Request)
    (p pv e : JsVal)
    (hp : extractPayload cfg req = .ok p)
    (hv : safeParse cfg.zodSchemas.input p = .success pv)
    (hh : h p = .reject e)
    (hn : e ≠ .null) (hu : e ≠ .undefined) :
    dispatch ⟨cfg, some h⟩ req =
      .responded 500 (.obj [("message", .str (claimDerivedMessage e))]) true := by
  have hpe : processException e = .ok (claimDerivedMessage e) := by
    cases e with
    | null => exact absurd rfl hn
    | undefined => exact absurd rfl hu
    | str s => rfl
    | num n => rfl
    | nan => rfl
    | bool b => rfl
    | arr xs => rfl
    | obj fields =>
      simp only [processException, getProp, claimDerivedMessage]
      cases hm : afind "message" fields with
      | none => rfl
      | some m =>
        cases m <;> simp [truthy]
        split <;> simp_all
  simp [dispatch, hp, hv, hh, hpe]

/-- Instantiation of the amended C2 statement: a handler that rejects
with the plain string boom yields a 500 response whose message is boom. -/
theorem handler_failure_message_witness :
    extractPayload (mutationRouteConfig ⟨"srv", "/v1"⟩ "op") ⟨.obj [], []⟩ = .ok (.obj []) ∧
    safeParse (mutationRouteConfig ⟨"srv", "/v1"⟩ "op").zodSchemas.input (.obj []) =
      .success (.obj []) ∧
    rejectHandler (.str "boom") (.obj []) = .reject (.str "boom") ∧
    dispatch ⟨mutationRouteConfig ⟨"srv", "/v1"⟩ "op", some (rejectHandler (.str "boom"))⟩
        ⟨.obj [], []⟩ =
      .responded 500 (.obj [("message", .str "boom")]) true :=
  ⟨rfl, rfl, rfl,
   handler_failure_message (mutationRouteConfig ⟨"srv", "/v1"⟩ "op")
     (rejectHandler (.str "boom")) ⟨.obj [], []⟩ (.obj []) (.obj []) (.str "boom")
     rfl rfl rfl (by simp) (by simp)⟩

/-- Helper for C3: zod safeParse never reports failure with an empty
issues list; every failing constructor site carries at least one issue
and the object case guards on the issue list being nonempty. -/
theorem safeParse_failure_ne_nil (t : ZodType) (v : JsVal) (issues : List ParseIssue)
    (h : safeParse t v = .failure issues) : issues ≠ [] := by
  intro hnil
  subst hnil
  cases t with
  | zany => simp [safeParse] at h
  | znull => cases v <;> simp [safeParse] at h
  | zstring => cases v <;> simp [safeParse] at h
  | znumber => cases v <;> simp [safeParse] at h
  | zboolean => cases v <;> simp [safeParse] at h
  | zobject fields =>
    cases v <;> simp [safeParse] at h
    split at h
    · simp at h
    · rename_i hne
      simp only [ParseResult.failure.injEq] at h
      rw [h] at hne
      simp at hne

/-- C3: for every inbound request whose extracted payload fails the
route input validator, the dispatcher responds with status 400 and the
structured invalid payload body carrying the issue list, that list is
nonempty, and the user handler is not invoked. -/
theorem validation_failure_responds_400 (cfg : RouteConfig) (h : Handler) (req : Request)
    (p : JsVal) (issues : List ParseIssue)
    (hp : extractPayload cfg req = .ok p)
    (hv : safeParse cfg.zodSchemas.input p = .failure issues) :
    dispatch ⟨cfg, some h⟩ req =
      .responded 400
        (.obj [("message", .str "Invalid request payload sent"), ("errors", issuesToJs issues)])
        false ∧
    issues ≠ [] := by
  refine ⟨?_, safeParse_failure_ne_nil _ _ _ hv⟩
  simp [dispatch, hp, hv]

/-- Instantiation of C3: a mutation route requiring a name string field
receives the empty object body and is answered with 400, one Required
issue and no handler invocation. -/
theorem validation_failure_responds_400_witness :
    extractPayload
        (applyChainOp ⟨mutationRouteConfig ⟨"srv", "/v1"⟩ "add", none⟩
          (.inputOp (.zobject [("name", .zstring)]))).config ⟨.obj [], []⟩ =
      .ok (.obj []) ∧
    safeParse (.zobject [("name", .zstring)]) (.obj []) =
      .failure [⟨["name"], "Required"⟩] ∧
    dispatch
        ⟨(applyChainOp ⟨mutationRouteConfig ⟨"srv", "/v1"⟩ "add", none⟩
            (.inputOp (.zobject [("name", .zstring)]))).config,
          some (constHandler .null)⟩ ⟨.obj [], []⟩ =
      .responded 400
        (.obj [("message", .str "Invalid request payload sent"),
               ("errors", issuesToJs [⟨["name"], "Required"⟩])])
        false :=
  ⟨rfl, rfl,
   (validation_failure_responds_400
      (applyChainOp ⟨mutationRouteConfig ⟨"srv", "/v1"⟩ "add", none⟩
        (.inputOp (.zobject [("name", .zstring)]))).config
      (constHandler .null) ⟨.obj [], []⟩ (.obj []) [⟨["name"], "Required"⟩] rfl rfl).1⟩

/-- C10: the 500 error path is not total.  The message derivation throws
a TypeError on null and undefined failure values, the dispatcher then
fails to produce any 500 response for such a rejection, and the
derivation returns a message for every other failure value. -/
theorem process_exception_not_total (cfg : RouteConfig) (h : Handler) (req : Request)
    (p pv : JsVal)
    (hp : extractPayload cfg req = .ok p)
    (hv : safeParse cfg.zodSchemas.input p = .success pv)
    (hh : h p = .reject .null) :
    processException .null = .error .typeError ∧
    processException .undefined = .error .typeError ∧
    dispatch ⟨cfg, some h⟩ req = .threw "TypeError" ∧
    (∀ e : JsVal, e ≠ .null → e ≠ .undefined → ∃ m, processException e = .ok m) := by
  refine ⟨rfl, rfl, by simp [dispatch, hp, hv, hh, processException, getProp, errName], ?_⟩
  intro e hn hu
  cases e with
  | null => exact absurd rfl hn
  | undefined => exact absurd rfl hu
  | str s => exact ⟨s, rfl⟩
  | num n => exact ⟨_, rfl⟩
  | nan => exact ⟨_, rfl⟩
  | bool b => exact ⟨_, rfl⟩
  | arr xs => exact ⟨_, rfl⟩
  | obj fields =>
    simp only [processException, getProp]
    cases hm : afind "message" fields with
    | none => exact ⟨_, rfl⟩
    | some m =>
      cases m <;> simp [truthy]
      split
      · exact ⟨_, rfl⟩
      · exact ⟨_, rfl⟩

/-- Instantiation of C10: a mutation route whose handler rejects with
null produces no response at all; the dispatcher itself throws. -/
theorem process_exception_not_total_witness :
    extractPayload (mutationRouteConfig ⟨"srv", "/v1"⟩ "op") ⟨.obj [], []⟩ = .ok (.obj []) ∧
    safeParse (mutationRouteConfig ⟨"srv", "/v1"⟩ "op").zodSchemas.input (.obj []) =
      .success (.obj []) ∧
    rejectHandler .null (.obj []) = .reject .null ∧
    dispatch ⟨mutationRouteConfig ⟨"srv", "/v1"⟩ "op", some (rejectHandler .null)⟩
        ⟨.obj [], []⟩ =
      .threw "TypeError" :=
  ⟨rfl, rfl, rfl,
   (process_exception_not_total (mutationRouteConfig ⟨"srv", "/v1"⟩ "op")
      (rejectHandler .null) ⟨.obj [], []⟩ (.obj []) (.obj []) rfl rfl rfl).2.2.1⟩

/-- The route value a whole fluent chain leaves behind: the created
route refined by every chained call in order. -/
def chainResult (rc : RouterConfig) (c : Chain) : Route :=
  applyChain (initialRoute rc c) c.ops

/-- Setting the position right after a list prefix inside an appended
singleton replaces that singleton. -/
theorem set_append_last {α : Type} (l : List α) (a b : α) :
    (l ++ [a]).set l.length b = l ++ [b] := by
  induction l with
  | nil => rfl
  | cons x t ih => simp [ih]

/-- Characterisation of the chain stepper: starting from a registry whose
captured slot holds the freshly created route at the end of the list,
every step rewrites that same slot, so the final registry holds the fully
refined route there and nothing else moved. -/
theorem runChainSteps_append (ops : List ChainOp) (pre : List Route) (r : Route)
    (cfg : RouterConfig) :
    (runChainSteps ⟨cfg, pre ++ [r]⟩ pre.length r ops).1 = ⟨cfg, pre ++ [applyChain r ops]⟩ := by
  induction ops generalizing r with
  | nil => rfl
  | cons op rest ih =>
    simp only [runChainSteps, set_append_last]
    exact ih (applyChainOp r op)

/-- One registration appends exactly one registry entry, holding the
fully refined route value of its chain. -/
theorem runChain_eq (st : RouterState) (c : Chain) :
    runChain st c = ⟨st.config, st.routes ++ [chainResult st.config c]⟩ := by
  cases st with
  | mk cfg routes => exact runChainSteps_append c.ops routes (initialRoute cfg c) cfg

/-- A registration phase appends one fully refined route per chain, in
order. -/
theorem runChains_eq (cfg : RouterConfig) (rs : List Route) (cs : List Chain) :
    runChains ⟨cfg, rs⟩ cs = ⟨cfg, rs ++ cs.map (chainResult cfg)⟩ := by
  induction cs generalizing rs with
  | nil => simp [runChains]
  | cons c t ih =>
    simp only [runChains, List.foldl_cons]
    rw [runChain_eq]
    simp only [runChains] at ih
    rw [ih (rs ++ [chainResult cfg c])]
    simp

/-- C6: after any sequence of fluent registrations with arbitrary
refinement chains, the registry holds exactly one entry per query or
mutation call, and each slot holds the most recently refined route value
of its chain. -/
theorem registry_slot_overwrite (rc : RouterConfig) (cs : List Chain) :
    (runChains ⟨rc, []⟩ cs).routes.length = cs.length ∧
    ∀ (i : Nat) (h1 : i < cs.length) (h2 : i < (runChains ⟨rc, []⟩ cs).routes.length),
      (runChains ⟨rc, []⟩ cs).routes.get ⟨i, h2⟩ = chainResult rc (cs.get ⟨i, h1⟩) := by
  rw [runChains_eq]
  refine ⟨by simp, ?_⟩
  intro i h1 h2
  simp

/-- Instantiation of C6 on two concrete chains: a query refined by an
input schema and a handler, followed by a plain mutation; the registry
has two slots holding the respective final route values. -/
theorem registry_slot_overwrite_witness :
    (runChains ⟨⟨"srv", "/v1"⟩, []⟩
        [⟨true, "a", [.inputOp .zstring, .fnOp (constHandler .null)]⟩,
         ⟨false, "b", []⟩]).routes.length = 2 ∧
    (0 : Nat) < 2 ∧
    (runChains ⟨⟨"srv", "/v1"⟩, []⟩
        [⟨true, "a", [.inputOp .zstring, .fnOp (constHandler .null)]⟩,
         ⟨false, "b", []⟩]).routes.get ⟨0, by rw [runChains_eq]; simp⟩ =
      chainResult ⟨"srv", "/v1"⟩ ⟨true, "a", [.inputOp .zstring, .fnOp (constHandler .null)]⟩ :=
  ⟨(registry_slot_overwrite ⟨"srv", "/v1"⟩
      [⟨true, "a", [.inputOp .zstring, .fnOp (constHandler .null)]⟩, ⟨false, "b", []⟩]).1,
   by decide,
   (registry_slot_overwrite ⟨"srv", "/v1"⟩
      [⟨true, "a", [.inputOp .zstring, .fnOp (constHandler .null)]⟩, ⟨false, "b", []⟩]).2
     0 (by decide) (by rw [runChains_eq]; simp)⟩

/-- Helper for C9: a chain segment with no handler attachment keeps a
missing handler missing, since the schema refinements construct handler
free route objects. -/
theorem applyChain_noFn_none (ops : List ChainOp) (r : Route)
    (hnofn : ops.all (fun op => !(isFnOp op)) = true) (hr : r.handler = none) :
    (applyChain r ops).handler = none := by
  induction ops generalizing r with
  | nil => exact hr
  | cons op rest ih =>
    simp only [List.all_cons, Bool.and_eq_true] at hnofn
    cases op with
    | inputOp s => exact ih _ hnofn.2 rfl
    | outputOp s => exact ih _ hnofn.2 rfl
    | fnOp hf => simp [isFnOp] at hnofn

/-- Helper for C9: a chain segment containing a schema refinement and no
handler attachment ends with no handler, whatever route it started on. -/
theorem applyChain_schemaOp_none (ops : List ChainOp) (r : Route)
    (hany : ops.any isSchemaOp = true)
    (hnofn : ops.all (fun op => !(isFnOp op)) = true) :
    (applyChain r ops).handler = none := by
  cases ops with
  | nil => simp at hany
  | cons op rest =>
    simp only [List.all_cons, Bool.and_eq_true] at hnofn
    cases op with
    | inputOp s => exact applyChain_noFn_none rest _ hnofn.2 rfl
    | outputOp s => exact applyChain_noFn_none rest _ hnofn.2 rfl
    | fnOp hf => simp [isFnOp] at hnofn

/-- C9: when fn is called before a later input or output call, the later
refinement constructs a new route value without the previously attached
handler and overwrites the registry slot with it, so the registered route
has no handler and dispatching it throws the missing handler
configuration error instead of invoking the attached function; the
handler attachment survives when fn is the final call of the chain. -/
theorem fn_before_refinement_loses_handler (rc : RouterConfig) (c1 c2 : Chain)
    (pre post : List ChainOp) (hfn : Handler) (req : Request)
    (hops : c1.ops = pre ++ ChainOp.fnOp hfn :: post)
    (hpost : post.any isSchemaOp = true)
    (hnofn : post.all (fun op => !(isFnOp op)) = true)
    (pre2 : List ChainOp) (hfn2 : Handler)
    (hops2 : c2.ops = pre2 ++ [ChainOp.fnOp hfn2]) :
    (chainResult rc c1).handler = none ∧
    (runChain ⟨rc, []⟩ c1).routes = [chainResult rc c1] ∧
    dispatch (chainResult rc c1) req = .threw "Validator and query are not defined" ∧
    (chainResult rc c2).handler = some hfn2 := by
  have h1 : (chainResult rc c1).handler = none := by
    unfold chainResult
    rw [hops]
    simp only [applyChain, List.foldl_append, List.foldl_cons]
    exact applyChain_schemaOp_none post _ hpost hnofn
  have h4 : (chainResult rc c2).handler = some hfn2 := by
    unfold chainResult
    rw [hops2]
    simp only [applyChain, List.foldl_append, List.foldl_cons, List.foldl_nil]
    rfl
  refine ⟨h1, by rw [runChain_eq]; simp, ?_, h4⟩
  cases hcr : chainResult rc c1 with
  | mk cfg hd =>
    rw [hcr] at h1
    simp only at h1
    rw [h1]
    rfl

/-- Instantiation of C9: a query chain calling fn before output loses the
handler and dispatch throws, while a chain ending in fn keeps it. -/
theorem fn_before_refinement_loses_handler_witness :
    (⟨true, "a", [.fnOp (constHandler .null), .outputOp .zstring]⟩ : Chain).ops =
      [] ++ ChainOp.fnOp (constHandler .null) :: [ChainOp.outputOp .zstring] ∧
    ([ChainOp.outputOp .zstring].any isSchemaOp = true) ∧
    ([ChainOp.outputOp .zstring].all (fun op => !(isFnOp op)) = true) ∧
    (⟨false, "b", [.inputOp .zstring, .fnOp (constHandler .null)]⟩ : Chain).ops =
      [ChainOp.inputOp .zstring] ++ [ChainOp.fnOp (constHandler .null)] ∧
    dispatch
        (chainResult ⟨"srv", "/v1"⟩ ⟨true, "a", [.fnOp (constHandler .null), .outputOp .zstring]⟩)
        ⟨.obj [], []⟩ =
      .threw "Validator and query are not defined" ∧
    (chainResult ⟨"srv", "/v1"⟩
        ⟨false, "b", [.inputOp .zstring, .fnOp (constHandler .null)]⟩).handler =
      some (constHandler .null) :=
  ⟨rfl, rfl, rfl, rfl,
   (fn_before_refinement_loses_handler ⟨"srv", "/v1"⟩
      ⟨true, "a", [.fnOp (constHandler .null), .outputOp .zstring]⟩
      ⟨false, "b", [.inputOp .zstring, .fnOp (constHandler .null)]⟩
      [] [ChainOp.outputOp .zstring] (constHandler .null) ⟨.obj [], []⟩
      rfl rfl rfl [ChainOp.inputOp .zstring] (constHandler .null) rfl).2.2.1,
   (fn_before_refinement_loses_handler ⟨"srv", "/v1"⟩
      ⟨true, "a", [.fnOp (constHandler .null), .outputOp .zstring]⟩
      ⟨false, "b", [.inputOp .zstring, .fnOp (constHandler .null)]⟩
      [] [ChainOp.outputOp .zstring] (constHandler .null) ⟨.obj [], []⟩
      rfl rfl rfl [ChainOp.inputOp .zstring] (constHandler .null) rfl).2.2.2⟩

/-- Helper for C1: a declared type other than the four explicitly
switched names falls through to the JSON literal parse. -/
theorem coerceByType_default (pty : JsVal) (v : String)
    (h1 : pty ≠ .str "string") (h2 : pty ≠ .str "boolean")
    (h3 : pty ≠ .str "number") (h4 : pty ≠ .str "integer") :
    coerceByType pty v = jsonParse v := by
  unfold coerceByType
  split
  · exact absurd rfl h1
  · exact absurd rfl h2
  · exact absurd rfl h3
  · exact absurd rfl h4
  · rfl

/-- Reduction of a property read on an object value. -/
theorem getProp_obj (fields : List (String × JsVal)) (k : String) :
    getProp (.obj fields) k = .ok ((afind k fields).getD .undefined) := rfl

/-- Helper for C1: a query key whose property schema is missing or falsy
never appears in the built payload. -/
theorem buildPayload_not_declared (props : List (String × JsVal))
    (query : List (String × String)) (payload : List (String × JsVal)) (k : String)
    (hb : buildPayload (.obj props) query = .ok payload)
    (hk : truthy ((afind k props).getD .undefined) = false) :
    afind k payload = none := by
  induction query generalizing payload with
  | nil =>
    simp only [buildPayload, Except.ok.injEq] at hb
    subst hb
    simp [afind]
  | cons kv rest ih =>
    obtain ⟨k2, param⟩ := kv
    simp only [buildPayload, getProp_obj] at hb
    by_cases heq : truthy ((afind k2 props).getD .undefined) = false
    · rw [if_pos heq] at hb
      exact ih payload hb
    · rw [if_neg heq] at hb
      cases hpt : getProp ((afind k2 props).getD .undefined) "type" with
      | error e => rw [hpt] at hb; dsimp only at hb; simp at hb
      | ok pty =>
        rw [hpt] at hb
        dsimp only at hb
        cases hc : coerceByType pty param with
        | error e => rw [hc] at hb; dsimp only at hb; simp at hb
        | ok jv =>
          rw [hc] at hb
          dsimp only at hb
          cases hr : buildPayload (.obj props) rest with
          | error e => rw [hr] at hb; dsimp only at hb; simp at hb
          | ok tail =>
            rw [hr] at hb
            dsimp only at hb
            simp only [Except.ok.injEq] at hb
            subst hb
            have hk2 : k2 ≠ k := by
              intro hkk
              subst hkk
              exact heq hk
            simp only [afind, if_neg hk2]
            exact ih tail hr

/-- Helper for C1: a query key with a truthy declared property schema
appears in the built payload with the value coerced by the declared
type. -/
theorem buildPayload_declared (props : List (String × JsVal))
    (query : List (String × String)) (payload : List (String × JsVal))
    (k v : String) (p : JsVal)
    (hb : buildPayload (.obj props) query = .ok payload)
    (hq : afind k query = some v)
    (hk : afind k props = some p) (ht : truthy p = true) :
    ∃ pty jv, getProp p "type" = .ok pty ∧ coerceByType pty v = .ok jv ∧
      afind k payload = some jv := by
  induction query generalizing payload with
  | nil => simp [afind] at hq
  | cons kv rest ih =>
    obtain ⟨k2, param⟩ := kv
    simp only [buildPayload, getProp_obj] at hb
    by_cases hkk : k2 = k
    · subst hkk
      have hq2 : param = v := by simpa [afind] using hq
      rw [hq2, hk] at hb
      simp only [Option.getD_some] at hb
      rw [if_neg (by simp [ht])] at hb
      cases hpt : getProp p "type" with
      | error e => rw [hpt] at hb; dsimp only at hb; simp at hb
      | ok pty =>
        rw [hpt] at hb
        dsimp only at hb
        cases hc : coerceByType pty v with
        | error e => rw [hc] at hb; dsimp only at hb; simp at hb
        | ok jv =>
          rw [hc] at hb
          dsimp only at hb
          cases hr : buildPayload (.obj props) rest with
          | error e => rw [hr] at hb; dsimp only at hb; simp at hb
          | ok tail =>
            rw [hr] at hb
            dsimp only at hb
            simp only [Except.ok.injEq] at hb
            subst hb
            exact ⟨pty, jv, rfl, hc, by simp [afind]⟩
    · simp only [afind, if_neg hkk] at hq
      by_cases heq : truthy ((afind k2 props).getD .undefined) = false
      · rw [if_pos heq] at hb
        exact ih payload hb hq
      · rw [if_neg heq] at hb
        cases hpt : getProp ((afind k2 props).getD .undefined) "type" with
        | error e => rw [hpt] at hb; dsimp only at hb; simp at hb
        | ok pty2 =>
          rw [hpt] at hb
          dsimp only at hb
          cases hc : coerceByType pty2 param with
          | error e => rw [hc] at hb; dsimp only at hb; simp at hb
          | ok jv2 =>
            rw [hc] at hb
            dsimp only at hb
            cases hr : buildPayload (.obj props) rest with
            | error e => rw [hr] at hb; dsimp only at hb; simp at hb
            | ok tail =>
              rw [hr] at hb
              dsimp only at hb
              simp only [Except.ok.injEq] at hb
              subst hb
              obtain ⟨pty, jv, hx1, hx2, hx3⟩ := ih tail hr hq
              exact ⟨pty, jv, hx1, hx2, by simp only [afind, if_neg hkk]; exact hx3⟩

/-- C1: for every route whose HTTP method is not post or put and whose
input schema is not the null sentinel, the dispatcher builds the payload
from the query parameters: when the derived JSON schema is open, that is
its type field is undefined or its additionalProperties field is truthy,
the raw query map passes through unchanged; otherwise every query key
with a truthy declared property is coerced by declared type, string
passing through, boolean comparing against the literal true, number and
integer parsing numerically and any other declared type parsing as a
JSON literal, while query keys without a declared property are dropped. -/
theorem query_param_coercion (cfg : RouteConfig) (req : Request)
    (hm1 : cfg.method ≠ "post") (hm2 : cfg.method ≠ "put")
    (hin : isZodTypeNull cfg.zodSchemas.input = false)
    (sf : List (String × JsVal)) (hS : cfg.jsonSchema.input = .obj sf) :
    ((jsUndef ((afind "type" sf).getD .undefined) ||
        truthy ((afind "additionalProperties" sf).getD .undefined)) = true →
      extractPayload cfg req = .ok (.obj (rawQueryObject req.query))) ∧
    ((jsUndef ((afind "type" sf).getD .undefined) ||
        truthy ((afind "additionalProperties" sf).getD .undefined)) = false →
      ∀ props, afind "properties" sf = some (.obj props) →
      ∀ payload, extractPayload cfg req = .ok (.obj payload) →
        (∀ k, truthy ((afind k props).getD .undefined) = false → afind k payload = none) ∧
        (∀ k v p, afind k req.query = some v → afind k props = some p → truthy p = true →
          ∃ pty jv, getProp p "type" = .ok pty ∧ coerceByType pty v = .ok jv ∧
            afind k payload = some jv ∧
            (pty = .str "string" → jv = .str v) ∧
            (pty = .str "boolean" → jv = .bool (v == "true")) ∧
            (pty = .str "number" ∨ pty = .str "integer" → jv = jsNumber v) ∧
            (pty ≠ .str "string" → pty ≠ .str "boolean" → pty ≠ .str "number" →
              pty ≠ .str "integer" → jsonParse v = .ok jv))) := by
  have hbody : (cfg.method == "post" || cfg.method == "put") = false := by
    simp [hm1, hm2]
  have hex : extractPayload cfg req = getPayloadFromParams req.query (.obj sf) := by
    simp [extractPayload, hin, hbody, hS]
  constructor
  · intro hopen
    rw [hex]
    by_cases hu : jsUndef ((afind "type" sf).getD .undefined) = true
    · simp [getPayloadFromParams, getProp_obj, hu]
    · have htr : truthy ((afind "additionalProperties" sf).getD .undefined) = true := by
        rcases Bool.or_eq_true_iff.mp hopen with h | h
        · exact absurd h hu
        · exact h
      simp [getPayloadFromParams, getProp_obj, Bool.not_eq_true .. |>.mp hu, htr]
  · intro hclosed props hprops payload hpay
    have hu : jsUndef ((afind "type" sf).getD .undefined) = false :=
      (Bool.or_eq_false_iff.mp hclosed).1
    have htr : truthy ((afind "additionalProperties" sf).getD .undefined) = false :=
      (Bool.or_eq_false_iff.mp hclosed).2
    rw [hex] at hpay
    simp only [getPayloadFromParams, getProp_obj, hu, htr, hprops, Bool.false_eq_true,
      if_false, Option.getD_some] at hpay
    cases hb : buildPayload (.obj props) req.query with
    | error e => rw [hb] at hpay; dsimp only at hpay; simp at hpay
    | ok fields =>
      rw [hb] at hpay
      dsimp only at hpay
      simp only [Except.ok.injEq, JsVal.obj.injEq] at hpay
      subst hpay
      constructor
      · intro k hk
        exact buildPayload_not_declared props req.query fields k hb hk
      · intro k v p hq hk ht
        obtain ⟨pty, jv, hpt, hc, hfind⟩ :=
          buildPayload_declared props req.query fields k v p hb hq hk ht
        refine ⟨pty, jv, hpt, hc, hfind, ?_, ?_, ?_, ?_⟩
        · intro h
          subst h
          exact (Except.ok.inj hc).symm
        · intro h
          subst h
          exact (Except.ok.inj hc).symm
        · rintro (h | h) <;> (subst h; exact (Except.ok.inj hc).symm)
        · intro h1 h2 h3 h4
          rw [coerceByType_default pty v h1 h2 h3 h4] at hc
          exact hc

/-- The concrete input schema used to instantiate C1. -/
def c1schemaW : ZodType :=
  .zobject [("count", .znumber), ("flag", .zboolean), ("name", .zstring), ("tag", .znull)]

/-- The concrete route configuration used to instantiate C1: a query
route refined with the schema above. -/
def c1cfgW : RouteConfig :=
  (applyChainOp ⟨queryRouteConfig ⟨"srv", "/v1"⟩ "list", none⟩ (.inputOp c1schemaW)).config

/-- The field list of the JSON schema derived for the C1 instance. -/
def c1sfW : List (String × JsVal) :=
  [("type", .str "object"),
   ("properties",
    .obj [("count", .obj [("type", .str "number")]),
          ("flag", .obj [("type", .str "boolean")]),
          ("name", .obj [("type", .str "string")]),
          ("tag", .obj [("type", .str "null")])]),
   ("required", .arr [.str "count", .str "flag", .str "name", .str "tag"]),
   ("additionalProperties", .bool false)]

/-- The declared properties of the C1 instance. -/
def c1propsW : List (String × JsVal) :=
  [("count", .obj [("type", .str "number")]),
   ("flag", .obj [("type", .str "boolean")]),
   ("name", .obj [("type", .str "string")]),
   ("tag", .obj [("type", .str "null")])]

/-- The concrete request used to instantiate C1. -/
def c1reqW : Request :=
  ⟨.obj [], [("count", "42"), ("flag", "yes"), ("name", "bob"), ("tag", "null"), ("junk", "1")]⟩

/-- The payload the dispatcher builds for the C1 instance. -/
def c1payW : List (String × JsVal) :=
  [("count", .num 42), ("flag", .bool false), ("name", .str "bob"), ("tag", .null)]

/-- Instantiation of C1 on a concrete closed query route: the integer
parameter is parsed numerically, the boolean parameter compares against
the literal true, the undeclared key is dropped. -/
theorem query_param_coercion_witness :
    extractPayload c1cfgW c1reqW = .ok (.obj c1payW) ∧
    afind "junk" c1payW = none ∧
    afind "count" c1payW = some (.num 42) ∧
    afind "flag" c1payW = some (.bool false) := by
  have H := query_param_coercion c1cfgW c1reqW (by decide) (by decide) rfl c1sfW rfl
  have H2 := H.2 rfl c1propsW rfl c1payW (by rfl)
  refine ⟨by rfl, H2.1 "junk" rfl, ?_, ?_⟩
  · obtain ⟨pty, jv, hpt, hc, hfind, hstr, hbool, hnum, hother⟩ :=
      H2.2 "count" "42" (.obj [("type", .str "number")]) rfl rfl rfl
    have hpty : pty = .str "number" := (Except.ok.inj hpt).symm
    rw [hnum (Or.inl hpty)] at hfind
    exact hfind.trans (by rfl)
  · obtain ⟨pty, jv, hpt, hc, hfind, hstr, hbool, hnum, hother⟩ :=
      H2.2 "flag" "yes" (.obj [("type", .str "boolean")]) rfl rfl rfl
    have hpty : pty = .str "boolean" := (Except.ok.inj hpt).symm
    rw [hbool hpty] at hfind
    exact hfind.trans (by rfl)

/-- Keys of an ordered string keyed object, in storage order. -/
def akeys {β : Type} (l : List (String × β)) : List String := l.map Prod.fst

/-- A key outside the key list has no binding. -/
theorem afind_eq_none {β : Type} (k : String) (l : List (String × β))
    (h : ¬ k ∈ akeys l) : afind k l = none := by
  induction l with
  | nil => rfl
  | cons kv t ih =>
    simp only [akeys, List.map_cons, List.mem_cons] at h
    push_neg at h
    have hne : kv.1 ≠ k := by
      intro hh
      exact h.1 hh.symm
    simp only [afind, if_neg hne]
    exact ih (by simpa [akeys] using h.2)

/-- Updating a key keeps the key list when the key is present and appends
it otherwise. -/
theorem akeys_aupdate {β : Type} (k : String) (f : Option β → β) (l : List (String × β)) :
    akeys (aupdate k f l) = if k ∈ akeys l then akeys l else akeys l ++ [k] := by
  induction l with
  | nil => simp [aupdate, akeys]
  | cons kv t ih =>
    by_cases hk : kv.1 = k
    · simp [aupdate, akeys, hk]
    · have h1 : aupdate k f (kv :: t) = kv :: aupdate k f t := by simp [aupdate, hk]
      rw [h1]
      have h2 : akeys (kv :: aupdate k f t) = kv.1 :: akeys (aupdate k f t) := rfl
      have h3 : akeys (kv :: t) = kv.1 :: akeys t := rfl
      rw [h2, ih, h3]
      have hne : ¬ k = kv.1 := by
        intro hh
        exact hk hh.symm
      by_cases hm : k ∈ akeys t
      · rw [if_pos hm, if_pos (List.mem_cons_of_mem _ hm)]
      · rw [if_neg hm, if_neg (by simp [hm, hne])]
        rfl

/-- Reading back the updated key. -/
theorem afind_aupdate_self {β : Type} (k : String) (f : Option β → β)
    (l : List (String × β)) :
    afind k (aupdate k f l) = some (f (afind k l)) := by
  induction l with
  | nil => simp [aupdate, afind]
  | cons kv t ih =>
    by_cases hk : kv.1 = k
    · simp [aupdate, afind, hk]
    · simp [aupdate, afind, hk, ih]

/-- Reading any other key after an update. -/
theorem afind_aupdate_other {β : Type} (k k2 : String) (f : Option β → β)
    (l : List (String × β)) (h : k2 ≠ k) :
    afind k2 (aupdate k f l) = afind k2 l := by
  have hne : ¬ k = k2 := by
    intro hh
    exact h hh.symm
  induction l with
  | nil => simp [aupdate, afind, hne]
  | cons kv t ih =>
    by_cases hk : kv.1 = k
    · subst hk
      simp [aupdate, afind, hne]
    · by_cases hk2 : kv.1 = k2
      · simp [aupdate, afind, hk, hk2, h]
      · simp [aupdate, afind, hk, hk2, ih]

/-- Updates preserve key distinctness. -/
theorem nodup_akeys_aupdate {β : Type} (k : String) (f : Option β → β)
    (l : List (String × β)) (h : (akeys l).Nodup) :
    (akeys (aupdate k f l)).Nodup := by
  rw [akeys_aupdate]
  split
  · exact h
  · rename_i hnotin
    simp [List.nodup_append, h, hnotin, List.disjoint_singleton]

/-- Two ordered objects with distinct keys, the same key order and the
same bindings are equal. -/
theorem alist_ext {β : Type} : ∀ (l1 l2 : List (String × β)),
    akeys l1 = akeys l2 → (akeys l1).Nodup → (∀ k, afind k l1 = afind k l2) → l1 = l2
  | [], [], _, _, _ => rfl
  | [], kv :: t, hk, _, _ => by simp [akeys] at hk
  | kv :: t, [], hk, _, _ => by simp [akeys] at hk
  | (k1, v1) :: t1, (k2, v2) :: t2, hk, hnd, hf => by
    simp only [akeys, List.map_cons, List.cons.injEq] at hk
    obtain ⟨hkk, hkt⟩ := hk
    subst hkk
    have hv : v1 = v2 := by
      have := hf k1
      simpa [afind] using this
    subst hv
    have hndc : (k1 :: akeys t1).Nodup := hnd
    have hnds := List.nodup_cons.mp hndc
    have hk1not2 : k1 ∉ akeys t2 := by
      have hkt2 : akeys t1 = akeys t2 := hkt
      rw [← hkt2]
      exact hnds.1
    have hft : ∀ k, afind k t1 = afind k t2 := by
      intro k
      by_cases hkeq : k1 = k
      · subst hkeq
        rw [afind_eq_none _ _ hnds.1, afind_eq_none _ _ hk1not2]
      · have := hf k
        simpa [afind, hkeq] using this
    rw [alist_ext t1 t2 hkt hnds.2 hft]

/-- A sequence of keyed updates applied left to right, the shape shared
by the path and the method level of addPath. -/
def applyU {β ω : Type} (key : ω → String) (upd : ω → Option β → β)
    (ws : List ω) (l : List (String × β)) : List (String × β) :=
  ws.foldl (fun acc w => aupdate (key w) (upd w) acc) l

/-- The binding of one key under a sequence of updates, folded over the
updates hitting that key. -/
def ufold {β ω : Type} (upd : ω → Option β → β) : List ω → Option β → Option β
  | [], o => o
  | w :: t, o => ufold upd t (some (upd w o))

/-- Reading one key after a sequence of updates only sees the updates
keyed at it, in order. -/
theorem afind_applyU {β ω : Type} (key : ω → String) (upd : ω → Option β → β)
    (ws : List ω) (l : List (String × β)) (p : String) :
    afind p (applyU key upd ws l) =
      ufold upd (ws.filter (fun w => key w == p)) (afind p l) := by
  induction ws generalizing l with
  | nil => rfl
  | cons w t ih =>
    simp only [applyU, List.foldl_cons]
    by_cases hw : key w = p
    · rw [List.filter_cons_of_pos (by simp [hw])]
      have := ih (aupdate (key w) (upd w) l)
      simp only [applyU] at this
      rw [this, hw, afind_aupdate_self]
      rfl
    · rw [List.filter_cons_of_neg (by simp [hw])]
      have := ih (aupdate (key w) (upd w) l)
      simp only [applyU] at this
      rw [this, afind_aupdate_other _ _ _ _ (fun hh => hw hh.symm)]

/-- Updates never delete keys. -/
theorem akeys_subset_applyU {β ω : Type} (key : ω → String) (upd : ω → Option β → β)
    (ws : List ω) (l : List (String × β)) :
    ∀ x, x ∈ akeys l → x ∈ akeys (applyU key upd ws l) := by
  induction ws generalizing l with
  | nil => intro x hx; exact hx
  | cons w t ih =>
    intro x hx
    simp only [applyU, List.foldl_cons]
    have := ih (aupdate (key w) (upd w) l)
    simp only [applyU] at this
    apply this
    rw [akeys_aupdate]
    split
    · exact hx
    · simp [hx]

/-- When every update key is already present the key order is unchanged. -/
theorem akeys_applyU_of_mem {β ω : Type} (key : ω → String) (upd : ω → Option β → β)
    (ws : List ω) (l : List (String × β))
    (h : ∀ w ∈ ws, key w ∈ akeys l) :
    akeys (applyU key upd ws l) = akeys l := by
  induction ws generalizing l with
  | nil => rfl
  | cons w t ih =>
    simp only [applyU, List.foldl_cons]
    have hupd : akeys (aupdate (key w) (upd w) l) = akeys l := by
      rw [akeys_aupdate, if_pos (h w (by simp))]
    have hrest := ih (aupdate (key w) (upd w) l)
      (by intro w2 hw2; rw [hupd]; exact h w2 (by simp [hw2]))
    simp only [applyU] at hrest
    rw [hrest, hupd]

/-- Every update key is present afterwards. -/
theorem key_mem_applyU {β ω : Type} (key : ω → String) (upd : ω → Option β → β)
    (ws : List ω) (l : List (String × β)) :
    ∀ w ∈ ws, key w ∈ akeys (applyU key upd ws l) := by
  induction ws generalizing l with
  | nil => intro w hw; simp at hw
  | cons w0 t ih =>
    intro w hw
    simp only [applyU, List.foldl_cons]
    rcases List.mem_cons.mp hw with h | h
    · subst h
      have hsub := akeys_subset_applyU key upd t (aupdate (key w) (upd w) l)
      have hmem : key w ∈ akeys (aupdate (key w) (upd w) l) := by
        rw [akeys_aupdate]
        split
        · assumption
        · simp
      have := hsub (key w) hmem
      simpa [applyU] using this
    · have := ih (aupdate (key w0) (upd w0) l) w h
      simpa [applyU] using this

/-- Updates preserve key distinctness. -/
theorem nodup_applyU {β ω : Type} (key : ω → String) (upd : ω → Option β → β)
    (ws : List ω) (l : List (String × β)) (h : (akeys l).Nodup) :
    (akeys (applyU key upd ws l)).Nodup := by
  induction ws generalizing l with
  | nil => exact h
  | cons w t ih =>
    simp only [applyU, List.foldl_cons]
    have := ih (aupdate (key w) (upd w) l) (nodup_akeys_aupdate _ _ _ h)
    simpa [applyU] using this

/-- The method level of one path item: plain assignments of operations
under their methods. -/
def applyM (ms : List (String × OperationObject)) (it : PathItem) : PathItem :=
  applyU Prod.fst (fun mw _ => mw.2) ms it

/-- A nonempty sequence of plain assignments forgets the starting
binding. -/
theorem ufold_const {β ω : Type} (val : ω → β) (ws : List ω) (o1 o2 : Option β)
    (h : ws ≠ []) :
    ufold (fun w _ => val w) ws o1 = ufold (fun w _ => val w) ws o2 := by
  cases ws with
  | nil => exact absurd rfl h
  | cons w t => rfl

/-- Replaying the same plain assignments a second time changes nothing. -/
theorem applyM_replay (ms : List (String × OperationObject)) (it : PathItem)
    (hnd : (akeys it).Nodup) :
    applyM ms (applyM ms it) = applyM ms it := by
  apply alist_ext
  · exact akeys_applyU_of_mem _ _ _ _ (key_mem_applyU _ _ ms it)
  · exact nodup_applyU _ _ _ _ (nodup_applyU _ _ _ _ hnd)
  · intro k
    rw [show applyM ms (applyM ms it) = applyU Prod.fst (fun mw _ => mw.2) ms (applyM ms it)
        from rfl]
    rw [afind_applyU]
    by_cases hf : ms.filter (fun w => w.1 == k) = []
    · rw [hf]
      rfl
    · rw [show applyM ms it = applyU Prod.fst (fun mw _ => mw.2) ms it from rfl,
        afind_applyU]
      exact ufold_const _ _ _ _ hf

/-- One write of Router generated OpenAPI path data: the path, the HTTP
method and the operation object of one route. -/
structure PathWrite where
  path : String
  method : String
  op : OperationObject

/-- The path item update addPath performs for one write: merge the
operation under its method over the existing path item, or a fresh one. -/
def pathUpd (w : PathWrite) (old : Option PathItem) : PathItem :=
  aset w.method w.op (old.getD [])

/-- The paths object after a sequence of addPath calls. -/
def applyP (ws : List PathWrite) (ps : List (String × PathItem)) : List (String × PathItem) :=
  applyU PathWrite.path pathUpd ws ps

/-- The method and operation pairs of a write sequence. -/
def methodPairs (ws : List PathWrite) : List (String × OperationObject) :=
  ws.map (fun w => (w.method, w.op))

/-- Folding path updates over an existing item is the method level
assignment sequence. -/
theorem ufold_pathUpd_some (ws : List PathWrite) (it : PathItem) :
    ufold pathUpd ws (some it) = some (applyM (methodPairs ws) it) := by
  induction ws generalizing it with
  | nil => rfl
  | cons w t ih =>
    simp only [ufold, methodPairs, List.map_cons]
    rw [ih]
    rfl

/-- Folding a nonempty write sequence over an absent item builds it from
the empty item. -/
theorem ufold_pathUpd_none (ws : List PathWrite) (h : ws ≠ []) :
    ufold pathUpd ws none = some (applyM (methodPairs ws) []) := by
  cases ws with
  | nil => exact absurd rfl h
  | cons w t =>
    simp only [ufold]
    rw [ufold_pathUpd_some]
    rfl

/-- Replaying the same addPath sequence on its own result changes
nothing, provided the starting paths object and its items have distinct
keys. -/
theorem applyP_replay (ws : List PathWrite) (ps : List (String × PathItem))
    (hnd : (akeys ps).Nodup)
    (hitems : ∀ p it, afind p ps = some it → (akeys it).Nodup) :
    applyP ws (applyP ws ps) = applyP ws ps := by
  apply alist_ext
  · exact akeys_applyU_of_mem _ _ _ _ (key_mem_applyU _ _ ws ps)
  · exact nodup_applyU _ _ _ _ (nodup_applyU _ _ _ _ hnd)
  · intro k
    rw [show applyP ws (applyP ws ps) = applyU PathWrite.path pathUpd ws (applyP ws ps)
        from rfl]
    rw [afind_applyU]
    by_cases hf : ws.filter (fun w => w.path == k) = []
    · rw [hf]
      rfl
    · rw [show applyP ws ps = applyU PathWrite.path pathUpd ws ps from rfl, afind_applyU]
      cases hin : afind k ps with
      | none =>
        rw [ufold_pathUpd_none _ hf, ufold_pathUpd_some]
        rw [applyM_replay _ _ (by simp [akeys])]
      | some it =>
        rw [ufold_pathUpd_some, ufold_pathUpd_some]
        rw [applyM_replay _ _ (hitems k it hin)]

/-- The write one route contributes to the OpenAPI document. -/
def routeWrite (r : Route) : PathWrite :=
  { path := (getOpenAPIOperation r.config).path
    method := (getOpenAPIOperation r.config).method
    op := (getOpenAPIOperation r.config).operation }

/-- The route loop of Router._generateOpenApi only rewrites the paths
object, by the write sequence of the routes. -/
theorem foldl_addPath (routes : List Route) (b : OpenApiDocState) :
    routes.foldl
        (fun acc r =>
          let po := getOpenAPIOperation r.config
          addPath acc po.path po.method po.operation) b =
      { title := b.title, paths := applyP (routes.map routeWrite) b.paths } := by
  induction routes generalizing b with
  | nil => rfl
  | cons r t ih =>
    simp only [List.foldl_cons, List.map_cons]
    rw [ih]
    rfl

/-- Router._generateOpenApi sets the title to the router name and applies
the route path writes to the builder paths. -/
theorem generateOpenApi_eq (b : OpenApiDocState) (st : RouterState) :
    generateOpenApi b st =
      { title := st.config.name, paths := applyP (st.routes.map routeWrite) b.paths } := by
  simp only [generateOpenApi]
  rw [foldl_addPath]
  rfl

/-- C8: generating the OpenAPI document twice from the same Router
without a registry mutation in between yields the same document as
generating it once, and the generated document is a pure function of the
route list and the router name. -/
theorem generate_spec_idempotent (st st2 : RouterState)
    (hr : st.routes = st2.routes) (hn : st.config.name = st2.config.name) :
    generateOpenApi (generateOpenApi createBuilder st) st = generateOpenApi createBuilder st ∧
    generateOpenApi createBuilder st = generateOpenApi createBuilder st2 := by
  constructor
  · rw [generateOpenApi_eq, generateOpenApi_eq]
    simp only [createBuilder]
    rw [applyP_replay]
    · simp [akeys]
    · intro p it h
      simp [afind] at h
  · rw [generateOpenApi_eq, generateOpenApi_eq, hr, hn]

/-- Instantiation of C8 on a concrete router with one query and one
mutation route, compared against a router with the same routes and name
but a different base URL. -/
theorem generate_spec_idempotent_witness :
    (⟨⟨"srv", "/v1"⟩,
       [⟨queryRouteConfig ⟨"srv", "/v1"⟩ "a", none⟩,
        ⟨mutationRouteConfig ⟨"srv", "/v1"⟩ "b", none⟩]⟩ : RouterState).routes =
      (⟨⟨"srv", "/other"⟩,
         [⟨queryRouteConfig ⟨"srv", "/v1"⟩ "a", none⟩,
          ⟨mutationRouteConfig ⟨"srv", "/v1"⟩ "b", none⟩]⟩ : RouterState).routes ∧
    generateOpenApi
        (generateOpenApi createBuilder
          ⟨⟨"srv", "/v1"⟩,
           [⟨queryRouteConfig ⟨"srv", "/v1"⟩ "a", none⟩,
            ⟨mutationRouteConfig ⟨"srv", "/v1"⟩ "b", none⟩]⟩)
        ⟨⟨"srv", "/v1"⟩,
         [⟨queryRouteConfig ⟨"srv", "/v1"⟩ "a", none⟩,
          ⟨mutationRouteConfig ⟨"srv", "/v1"⟩ "b", none⟩]⟩ =
      generateOpenApi createBuilder
        ⟨⟨"srv", "/v1"⟩,
         [⟨queryRouteConfig ⟨"srv", "/v1"⟩ "a", none⟩,
          ⟨mutationRouteConfig ⟨"srv", "/v1"⟩ "b", none⟩]⟩ ∧
    generateOpenApi createBuilder
        ⟨⟨"srv", "/v1"⟩,
         [⟨queryRouteConfig ⟨"srv", "/v1"⟩ "a", none⟩,
          ⟨mutationRouteConfig ⟨"srv", "/v1"⟩ "b", none⟩]⟩ =
      generateOpenApi createBuilder
        ⟨⟨"srv", "/other"⟩,
         [⟨queryRouteConfig ⟨"srv", "/v1"⟩ "a", none⟩,
          ⟨mutationRouteConfig ⟨"srv", "/v1"⟩ "b", none⟩]⟩ :=
  ⟨rfl,
   (generate_spec_idempotent _ _ rfl rfl).1,
   (generate_spec_idempotent
      ⟨⟨"srv", "/v1"⟩,
       [⟨queryRouteConfig ⟨"srv", "/v1"⟩ "a", none⟩,
        ⟨mutationRouteConfig ⟨"srv", "/v1"⟩ "b", none⟩]⟩
      ⟨⟨"srv", "/other"⟩,
       [⟨queryRouteConfig ⟨"srv", "/v1"⟩ "a", none⟩,
        ⟨mutationRouteConfig ⟨"srv", "/v1"⟩ "b", none⟩]⟩ rfl rfl).2⟩

end SpaceSDK
